import Mathlib

/-!
Shallow embedding of `es_grad_v2.2.py` (CEM-RL hybrid trainer).

The file embeds, faithfully to the Python source:
  * the `evaluate` function (lines 83-136): episode rollouts under a gym
    `TimeLimit` environment, the cumulative step counter, the truncation-aware
    `done_bool`, transition recording into the replay memory, environment
    resets;
  * the non-random policy closure built inside `evaluate` (lines 88-96):
    actor output plus optional exploration noise, clipped with
    `np.clip(action, -max_action, max_action)` where
    `max_action = int(env.action_space.high[0])` (line 264);
  * the training loop body (lines 303-380): warmup gate
    `total_steps > args.start_steps`, the gradient-actor update/evaluate
    phase, the `actor_steps = 0` reset at line 335, the evolutionary
    evaluation phase, step accounting, the fused `es.tell` call, and the
    periodic checkpoint / log-snapshot block;
  * the `antithetic=not args.pop_size % 2` argument of the `sepCEM`
    construction (lines 294-295).

Rewards are embedded as integers and fitness values as rationals (`np.mean`
becomes exact rational mean; note `np.mean` of an empty list is NaN in
NumPy, while `ratMean [] = 0` here, so theorems about the log record only
use generations whose fitness lists are non-empty).
-/

namespace CEMRL

/-- Exact rational mean, embedding `np.mean` on a non-empty list. -/
def ratMean (l : List Rat) : Rat := l.sum / (l.length : Rat)

/-- Embedding of `np.max` on a non-empty list of fitnesses. -/
def ratMax (l : List Rat) : Rat := l.foldl max (l.headD 0)

/-- A transition tuple `(obs, n_obs, action, reward, done_bool)` as appended
to the replay memory at line 123 of the source. -/
structure Transition (S A : Type) where
  obs : S
  nObs : S
  act : A
  rew : Int
  doneFlag : Nat
deriving DecidableEq, Repr

/-- A gym environment as the source uses it: a deterministic reset stream
(the `k`-th call of `env.reset()` yields `resetF k`), an underlying step
function returning `(next_obs, reward, raw_done)`, the `TimeLimit`
attribute `env._max_episode_steps`, and the declared action-space box
(`env.action_space.low` / `env.action_space.high`). -/
structure Env (S A : Type) where
  maxEp : Nat
  resetF : Nat → S
  stepF : S → A → S × Int × Bool
  low : List Rat
  high : List Rat

/-- Result of one episode of the `while not done` loop of `evaluate`:
the episode's cumulative reward (`score`), the number of steps it took,
the transitions recorded into the memory (empty when no memory is given),
and the number of `env.reset()` calls made inside the loop body
(the line-132 reset fired on `done`). -/
structure EpOut (S A : Type) where
  score : Int
  epSteps : Nat
  trans : List (Transition S A)
  resets : Nat
deriving DecidableEq, Repr

/-- One episode of `evaluate` (source lines 111-132), with gym's
`TimeLimit` wrapper made explicit: the `done` returned by `env.step` is
the raw terminal flag or the per-episode elapsed-step count reaching
`env._max_episode_steps`.  The policy is given the global step count
(the number of previous policy calls in this `evaluate` call) so that a
stateful noise source can be embedded.  `g` is the global `steps` counter
of `evaluate`, which the source uses — cumulatively across episodes — in
`done_bool = 0 if steps + 1 == env._max_episode_steps else float(done)`.
Recursion is on `fuel`; with `fuel = maxEp - elapsed` the time limit
forces `done` before fuel runs out. -/
def runEp (env : Env S A) (pol : Nat → S → A) (useMem : Bool) :
    Nat → S → Nat → Nat → EpOut S A
  | 0, _, _, _ => ⟨0, 0, [], 0⟩
  | fuel + 1, obs, elapsed, g =>
    let a := pol g obs
    let r := env.stepF obs a
    let d := r.2.2 || decide (env.maxEp ≤ elapsed + 1)
    let db : Nat := if g + 1 = env.maxEp then 0 else if d then 1 else 0
    let tr : List (Transition S A) :=
      if useMem then [⟨obs, r.1, a, r.2.1, db⟩] else []
    if d then ⟨r.2.1, 1, tr, 1⟩
    else
      let rest := runEp env pol useMem fuel r.1 (elapsed + 1) (g + 1)
      ⟨r.2.1 + rest.score, 1 + rest.epSteps, tr ++ rest.trans, rest.resets⟩

/-- The `for _ in range(n_episodes)` loop of `evaluate` (lines 105-134):
returns the list of per-episode scores, the final global step counter,
all recorded transitions in order, and the total number of `env.reset()`
calls.  `rIdx` indexes the environment's reset stream: line 108 resets at
the start of each episode, and the line-132 reset consumed inside
`runEp` also advances the stream. -/
def evalEpisodes (env : Env S A) (pol : Nat → S → A) (useMem : Bool) :
    Nat → Nat → Nat → List Int × Nat × List (Transition S A) × Nat
  | 0, g, _ => ([], g, [], 0)
  | n + 1, g, rIdx =>
    let obs := env.resetF rIdx
    let out := runEp env pol useMem env.maxEp obs 0 g
    let rest := evalEpisodes env pol useMem n (g + out.epSteps) (rIdx + 1 + out.resets)
    (out.score :: rest.1, rest.2.1, out.trans ++ rest.2.2.1, 1 + out.resets + rest.2.2.2)

/-- Embedding of `evaluate(actor, env, memory, n_episodes, ...)`
(lines 83-136).  Returns `(np.mean(scores), steps)` together with the
observable side effects: the transitions appended to the memory and the
number of environment resets performed. -/
def evaluate (env : Env S A) (pol : Nat → S → A) (useMem : Bool) (nEp : Nat) :
    Rat × Nat × List (Transition S A) × Nat :=
  let r := evalEpisodes env pol useMem nEp 0 0
  (ratMean (r.1.map fun s : Int => (s : Rat)), r.2.1, r.2.2.1, r.2.2.2)

/-- Specification-side view of the episode structure: the list of
per-episode outcomes, each episode started from a fresh reset of the
environment, with the global step counter and reset stream threaded
exactly as `evaluate` threads them. -/
def episodeOuts (env : Env S A) (pol : Nat → S → A) (useMem : Bool) :
    Nat → Nat → Nat → List (EpOut S A)
  | 0, _, _ => []
  | n + 1, g, rIdx =>
    let out := runEp env pol useMem env.maxEp (env.resetF rIdx) 0 g
    out :: episodeOuts env pol useMem n (g + out.epSteps) (rIdx + 1 + out.resets)

/-- Componentwise clip, embedding `np.clip(x, lo, hi)` on one component. -/
def clipR (x lo hi : Rat) : Rat := min (max x lo) hi

/-- Python's `int()` truncation toward zero on a rational. -/
def pyInt (q : Rat) : Int := if 0 ≤ q then q.floor else -((-q).floor)

/-- Line 264 of the source: `max_action = int(env.action_space.high[0])`. -/
def maxActionOf (env : Env S (List Rat)) : Int := pyInt (env.high.headD 0)

/-- The non-random policy closure of `evaluate` (lines 88-96): the actor's
output on the state, plus a sample of the exploration noise when a noise
source is given, clipped componentwise by
`np.clip(action, -max_action, max_action)`. -/
def policyAction (actorOut : List Rat) (noise : Option (List Rat)) (m : Int) :
    List Rat :=
  let a := match noise with
    | none => actorOut
    | some ns => actorOut.zipWith (· + ·) ns
  a.map fun x => clipR x (-(m : Rat)) (m : Rat)

/-- The non-random policy as `evaluate` calls it: `actorF` is the actor
network's forward pass, `noiseF` (when present) the noise source's sample
stream indexed by the number of previous policy calls. -/
def nonRandomPol (actorF : S → List Rat) (noiseF : Option (Nat → List Rat))
    (m : Int) : Nat → S → List Rat :=
  fun g s => policyAction (actorF s) (noiseF.map fun nf => nf g) m

/-- Membership of an action in the environment's declared action-space box,
componentwise `low[i] <= a[i] <= high[i]`. -/
def inBox (low high a : List Rat) : Prop :=
  ∀ p ∈ a.zip (low.zip high), p.2.1 ≤ p.1 ∧ p.1 ≤ p.2.2

/-- The command-line arguments the loop body reads (a fragment of the
`argparse` namespace of lines 202-254). -/
structure Args where
  start_steps : Nat
  n_grad : Nat
  batch_size : Nat
  period : Nat
  max_steps : Nat
deriving DecidableEq, Repr

/-- One row of the run log `df` (lines 301-302 and 361-365): total steps and
the fitness summary of the generation that crossed the checkpoint period. -/
structure Rec where
  totalSteps : Nat
  avgEa : Rat
  avgRl : Rat
  avg : Rat
  best : Rat
deriving DecidableEq, Repr

/-- The mutable state of the training loop across generations.  `evalSt` is
the abstract state of the evaluation stack (environment, noise, replay
memory content): the loop treats `evaluate` as a stateful oracle.
`bufLen` is the number of transitions the replay memory holds (every
rollout's steps are appended, by the behaviour of `evaluate`).
`snapshots` records each `df.to_pickle` write (line 360) in order, and
`ckpts` the step tags of the checkpoint directories (lines 366-375). -/
structure LoopState (E : Type) where
  totalSteps : Nat
  actorSteps : Nat
  stepCpt : Nat
  df : List Rec
  evalSt : E
  bufLen : Nat
  snapshots : List (List Rec)
  ckpts : List Nat

/-- Per-generation inputs from outside the loop state: the population
returned by `es.ask(args.pop_size)` (line 308) and, for each `i`, the
parameter vector `actors[i].get_params()` after this generation's gradient
update (line 328). -/
structure GenInput (P : Type) where
  eaParams : List P
  rlParamsNow : Nat → P

/-- Observable events of one generation: the two arguments of the
`es.tell(params, fitness)` call (lines 352-355) and the number of actor and
critic gradient-update calls performed (lines 313-322). -/
structure GenTrace (P : Type) where
  tellParams : List P
  tellFitness : List Rat
  updActor : Nat
  updCritic : Nat

/-- Sequential evaluation of a list of parameter vectors against a stateful
evaluation oracle `ev` (each call returns fitness, environment steps
consumed, and the updated oracle state): returns the fitness list in call
order, the total steps, and the final state. -/
def evalSeq (ev : E → P → Rat × Nat × E) : E → List P → List Rat × Nat × E
  | e, [] => ([], 0, e)
  | e, p :: ps =>
    let r := ev e p
    let rest := evalSeq ev r.2.2 ps
    (r.1 :: rest.1, r.2.1 + rest.2.1, rest.2.2)

/-- The `(parameter, fitness)` pairs produced by evaluating a list of
parameter vectors sequentially: the fitness paired with each vector is the
one the oracle returns for that vector at its actual call state. -/
def evalPairs (ev : E → P → Rat × Nat × E) : E → List P → List (P × Rat)
  | _, [] => []
  | e, p :: ps => (p, (ev e p).1) :: evalPairs ev (ev e p).2.2 ps

/-- The gradient phase of one generation (lines 311-332): when
`total_steps > args.start_steps`, each of the `n_grad` actors gets one
actor update and one critic update and is then evaluated; returns
`(fitness_rl, rl steps, oracle state after, rl_params)`.  During warmup the
phase is skipped entirely. -/
def rlPhase (ar : Args) (ev : E → P → Rat × Nat × E) (st : LoopState E)
    (gi : GenInput P) : List Rat × Nat × E × List P :=
  if ar.start_steps < st.totalSteps then
    let ps := (List.range ar.n_grad).map gi.rlParamsNow
    let r := evalSeq ev st.evalSt ps
    (r.1, r.2.1, r.2.2, ps)
  else ([], 0, st.evalSt, [])

/-- The evolutionary-phase evaluation of one generation (lines 336-345):
`evalSeq` over the population returned by `ask`, starting from the oracle
state left by the gradient phase. -/
def eaPhase (ar : Args) (ev : E → P → Rat × Nat × E) (st : LoopState E)
    (gi : GenInput P) : List Rat × Nat × E :=
  evalSeq ev (rlPhase ar ev st gi).2.2.1 gi.eaParams

/-- The summary record appended to the run log at a checkpoint boundary
(lines 361-365). -/
def genRes (ts : Nat) (fitsEa fitsRl : List Rat) : Rec :=
  ⟨ts, ratMean fitsEa, ratMean fitsRl, ratMean (fitsEa ++ fitsRl),
    ratMax (fitsEa ++ fitsRl)⟩

/-- One iteration of the `while total_steps < args.max_steps` loop body
(lines 303-380), translated statement by statement:
gradient phase (311-332), `actor_steps = 0` (335), evolutionary
evaluations (336-345), `total_steps += actor_steps` and
`step_cpt += actor_steps` (348-349), the fused `es.tell` call (352-355),
and the `if step_cpt >= args.period` checkpoint block (358-378), in which
`df.to_pickle` (360) runs before `df.append(res)` (376). -/
def genBody (ar : Args) (ev : E → P → Rat × Nat × E) (st : LoopState E)
    (gi : GenInput P) : LoopState E × GenTrace P :=
  let rl := rlPhase ar ev st gi
  let active := ar.start_steps < st.totalSteps
  -- line 327 accumulates `actor_steps += steps` over the gradient rollouts,
  -- but line 335 then resets `actor_steps = 0` before the evolutionary loop,
  -- so the accumulator that reaches `total_steps += actor_steps` (line 348)
  -- holds the evolutionary rollouts' steps only: the gradient rollouts'
  -- steps are discarded from the step accounting.
  let ea := eaPhase ar ev st gi
  let actorSteps3 := ea.2.1
  let totalSteps' := st.totalSteps + actorSteps3
  let stepCpt' := st.stepCpt + actorSteps3
  let fitness := ea.1 ++ rl.1
  let params := gi.eaParams ++ rl.2.2.2
  let bufLen' := st.bufLen + rl.2.1 + ea.2.1
  let tr : GenTrace P :=
    ⟨params, fitness, if active then ar.n_grad else 0,
      if active then ar.n_grad else 0⟩
  let st' : LoopState E :=
    if ar.period ≤ stepCpt' then
      let snap := st.df
      let res := genRes totalSteps' ea.1 rl.1
      ⟨totalSteps', actorSteps3, 0, st.df ++ [res], ea.2.2, bufLen',
        st.snapshots ++ [snap], st.ckpts ++ [totalSteps']⟩
    else
      ⟨totalSteps', actorSteps3, stepCpt', st.df, ea.2.2, bufLen',
        st.snapshots, st.ckpts⟩
  (st', tr)

/-- Iterating the loop body for a number of generations, with `gis n` the
generation-`n` inputs (population sample and post-update actor
parameters). -/
def loopIter (ar : Args) (ev : E → P → Rat × Nat × E) (gis : Nat → GenInput P)
    (st0 : LoopState E) : Nat → LoopState E
  | 0 => st0
  | n + 1 => (genBody ar ev (loopIter ar ev gis st0 n) (gis n)).1

/-- Python's truthiness negation `not n` on an integer. -/
def pyNot (n : Int) : Bool := n == 0

/-- Line 295 of the source: the `antithetic=not args.pop_size % 2` argument
of the `sepCEM` construction. -/
def antitheticArg (popSize : Int) : Bool := pyNot (popSize % 2)

/-- Modelled from the spec: the construction-time precondition of `sepCEM`
(class in `ES.py`, which is not part of the sources here).  Spec section 7:
"Odd population size with antithetic sampling requested: configuration
error, fails fast at engine construction" — construction succeeds exactly
when antithetic sampling is off or the population size is even. -/
def sepCEMConstructionOk (popSize : Int) (antithetic : Bool) : Prop :=
  antithetic = true → popSize % 2 = 0

/-! Supporting lemmas. -/

theorem evalSeq_fits_length (ev : E → P → Rat × Nat × E) (e : E) (ps : List P) :
    (evalSeq ev e ps).1.length = ps.length := by
  induction ps generalizing e with
  | nil => rfl
  | cons p ps ih => simp [evalSeq, ih]

theorem zip_evalSeq (ev : E → P → Rat × Nat × E) (e : E) (ps : List P) :
    ps.zip (evalSeq ev e ps).1 = evalPairs ev e ps := by
  induction ps generalizing e with
  | nil => rfl
  | cons p ps ih => simp [evalSeq, evalPairs, ih]

theorem genBody_trace (ar : Args) (ev : E → P → Rat × Nat × E)
    (st : LoopState E) (gi : GenInput P) :
    (genBody ar ev st gi).2 =
      ⟨gi.eaParams ++ (rlPhase ar ev st gi).2.2.2,
        (eaPhase ar ev st gi).1 ++ (rlPhase ar ev st gi).1,
        if ar.start_steps < st.totalSteps then ar.n_grad else 0,
        if ar.start_steps < st.totalSteps then ar.n_grad else 0⟩ := rfl

theorem genBody_totalSteps (ar : Args) (ev : E → P → Rat × Nat × E)
    (st : LoopState E) (gi : GenInput P) :
    (genBody ar ev st gi).1.totalSteps = st.totalSteps + (eaPhase ar ev st gi).2.1 := by
  simp only [genBody]
  split <;> rfl

theorem genBody_totalSteps_mono (ar : Args) (ev : E → P → Rat × Nat × E)
    (st : LoopState E) (gi : GenInput P) :
    st.totalSteps ≤ (genBody ar ev st gi).1.totalSteps := by
  rw [genBody_totalSteps]
  exact Nat.le_add_right _ _

theorem loopIter_active_persists (ar : Args) (ev : E → P → Rat × Nat × E)
    (gis : Nat → GenInput P) (st0 : LoopState E) (n : Nat) :
    ∀ k, ar.start_steps < (loopIter ar ev gis st0 n).totalSteps →
      ar.start_steps < (loopIter ar ev gis st0 (n + k)).totalSteps := by
  intro k
  induction k with
  | zero => exact fun h => h
  | succ k ih =>
    intro h
    have h2 := ih h
    have h3 := genBody_totalSteps_mono ar ev (loopIter ar ev gis st0 (n + k)) (gis (n + k))
    have h4 : loopIter ar ev gis st0 (n + (k + 1)) =
        (genBody ar ev (loopIter ar ev gis st0 (n + k)) (gis (n + k))).1 := rfl
    rw [h4]
    omega

theorem runEp_resets_one (env : Env S A) (pol : Nat → S → A) (useMem : Bool) :
    ∀ fuel elapsed obs g, env.maxEp ≤ elapsed + fuel → elapsed < env.maxEp →
      (runEp env pol useMem fuel obs elapsed g).resets = 1 := by
  intro fuel
  induction fuel with
  | zero => intro elapsed obs g h1 h2; omega
  | succ fuel ih =>
    intro elapsed obs g h1 h2
    simp only [runEp]
    split
    · rfl
    · next hd =>
      simp only [Bool.or_eq_true, decide_eq_true_eq, not_or] at hd
      exact ih (elapsed + 1) _ (g + 1) (by omega) (by omega)

theorem runEp_trans_len (env : Env S A) (pol : Nat → S → A) (useMem : Bool) :
    ∀ fuel obs elapsed g,
      (runEp env pol useMem fuel obs elapsed g).trans.length =
        if useMem then (runEp env pol useMem fuel obs elapsed g).epSteps else 0 := by
  intro fuel
  induction fuel with
  | zero => intro obs el g; cases useMem <;> rfl
  | succ fuel ih =>
    intro obs el g
    simp only [runEp]
    split
    · cases useMem <;> rfl
    · cases useMem with
      | false => simpa using ih _ (el + 1) (g + 1)
      | true =>
        have h := ih (env.stepF obs (pol g obs)).1 (el + 1) (g + 1)
        simp only [if_true] at h ⊢
        rw [List.length_append, h]
        simp

theorem runEp_act_mem (env : Env S A) (pol : Nat → S → A) (useMem : Bool) :
    ∀ fuel obs elapsed g t, t ∈ (runEp env pol useMem fuel obs elapsed g).trans →
      ∃ gg ss, t.act = pol gg ss := by
  intro fuel
  induction fuel with
  | zero => intro obs el g t ht; simp [runEp] at ht
  | succ fuel ih =>
    intro obs el g t ht
    simp only [runEp] at ht
    split at ht
    · cases useMem with
      | false => simp at ht
      | true =>
        simp only [if_true] at ht
        rw [List.mem_singleton] at ht
        exact ⟨g, obs, by rw [ht]⟩
    · rw [List.mem_append] at ht
      rcases ht with h | h
      · cases useMem with
        | false => simp at h
        | true =>
          simp only [if_true] at h
          rw [List.mem_singleton] at h
          exact ⟨g, obs, by rw [h]⟩
      · exact ih _ (el + 1) (g + 1) t h

theorem episodeOuts_length (env : Env S A) (pol : Nat → S → A) (useMem : Bool) :
    ∀ n g r, (episodeOuts env pol useMem n g r).length = n := by
  intro n
  induction n with
  | zero => intro g r; rfl
  | succ n ih => intro g r; simp [episodeOuts, ih]

theorem evalEpisodes_eq (env : Env S A) (pol : Nat → S → A) (useMem : Bool) :
    ∀ n g r,
      evalEpisodes env pol useMem n g r =
        ((episodeOuts env pol useMem n g r).map EpOut.score,
          g + ((episodeOuts env pol useMem n g r).map EpOut.epSteps).sum,
          ((episodeOuts env pol useMem n g r).map EpOut.trans).flatten,
          ((episodeOuts env pol useMem n g r).map fun o => 1 + o.resets).sum) := by
  intro n
  induction n with
  | zero => intro g r; simp [evalEpisodes, episodeOuts]
  | succ n ih =>
    intro g r
    simp [evalEpisodes, episodeOuts, ih, Nat.add_assoc]

theorem episodeOuts_resets (env : Env S A) (pol : Nat → S → A) (useMem : Bool)
    (h1 : 1 ≤ env.maxEp) :
    ∀ n g r o, o ∈ episodeOuts env pol useMem n g r → o.resets = 1 := by
  intro n
  induction n with
  | zero => intro g r o ho; simp [episodeOuts] at ho
  | succ n ih =>
    intro g r o ho
    simp only [episodeOuts, List.mem_cons] at ho
    rcases ho with h | h
    · rw [h]
      exact runEp_resets_one env pol useMem env.maxEp 0 _ _ (by omega) (by omega)
    · exact ih _ _ o h

theorem episodeOuts_mem_runEp (env : Env S A) (pol : Nat → S → A) (useMem : Bool) :
    ∀ n g r o, o ∈ episodeOuts env pol useMem n g r →
      ∃ g0 s0, o = runEp env pol useMem env.maxEp s0 0 g0 := by
  intro n
  induction n with
  | zero => intro g r o ho; simp [episodeOuts] at ho
  | succ n ih =>
    intro g r o ho
    simp only [episodeOuts, List.mem_cons] at ho
    rcases ho with h | h
    · exact ⟨g, env.resetF r, h⟩
    · exact ih _ _ o h

theorem clipR_bound (x m : Rat) (hm : 0 ≤ m) :
    -m ≤ clipR x (-m) m ∧ clipR x (-m) m ≤ m := by
  unfold clipR
  constructor
  · exact le_min (le_trans (le_refl _) (le_max_right x (-m))) (by linarith)
  · exact min_le_right _ _

theorem policyAction_bound (out : List Rat) (ns : Option (List Rat)) (m : Int)
    (hm : 0 ≤ m) :
    ∀ x ∈ policyAction out ns m, -((m : Int) : Rat) ≤ x ∧ x ≤ ((m : Int) : Rat) := by
  intro x hx
  unfold policyAction at hx
  simp only [List.mem_map] at hx
  obtain ⟨y, _, hy⟩ := hx
  rw [← hy]
  exact clipR_bound y ((m : Int) : Rat) (by exact_mod_cast hm)

theorem rlPhase_zip (ar : Args) (ev : E → P → Rat × Nat × E)
    (st : LoopState E) (gi : GenInput P) :
    (rlPhase ar ev st gi).2.2.2.zip (rlPhase ar ev st gi).1
        = evalPairs ev st.evalSt (rlPhase ar ev st gi).2.2.2
    ∧ (rlPhase ar ev st gi).1.length = (rlPhase ar ev st gi).2.2.2.length := by
  unfold rlPhase
  split
  · exact ⟨zip_evalSeq ev st.evalSt _, evalSeq_fits_length ev st.evalSt _⟩
  · exact ⟨rfl, rfl⟩

/-! Claim theorems. -/

/-- C1: in every generation, the parameter list and the fitness list passed
to `es.tell` (lines 352-355) have equal length, and they correspond
index-wise in the order [evolutionary candidates] ++ [gradient actors]:
zipping the parameter list with the fitness list yields exactly the
`(parameter, fitness)` pairs produced by the evolutionary evaluations
(performed at the oracle state left by the gradient phase) followed by the
pairs produced by the gradient actors' evaluations (performed first, at the
generation's initial oracle state) — `evalPairs` pairs each parameter
vector with the fitness its own sequential evaluation returned, so for all
`i`, `combined_fitness[i]` is the fitness produced by evaluating
`combined_params[i]`. -/
theorem tell_pairing (ar : Args) (ev : E → P → Rat × Nat × E)
    (st : LoopState E) (gi : GenInput P) :
    (genBody ar ev st gi).2.tellParams.length
        = (genBody ar ev st gi).2.tellFitness.length
    ∧ (genBody ar ev st gi).2.tellParams.zip (genBody ar ev st gi).2.tellFitness
        = evalPairs ev (rlPhase ar ev st gi).2.2.1 gi.eaParams
            ++ evalPairs ev st.evalSt (rlPhase ar ev st gi).2.2.2 := by
  have hrl := rlPhase_zip ar ev st gi
  have hlen : gi.eaParams.length = (eaPhase ar ev st gi).1.length :=
    (evalSeq_fits_length ev _ gi.eaParams).symm
  rw [genBody_trace]
  refine ⟨?_, ?_⟩
  · simp only [List.length_append]
    rw [← hlen, hrl.2]
  · show (gi.eaParams ++ (rlPhase ar ev st gi).2.2.2).zip
        ((eaPhase ar ev st gi).1 ++ (rlPhase ar ev st gi).1) = _
    rw [List.zip_append hlen]
    unfold eaPhase
    rw [zip_evalSeq, hrl.1]

/-- C2 (code bug exhibit): a generation in the active state whose single
gradient-actor rollout consumes 5 environment steps and whose single
evolutionary rollout consumes 3 steps, starting from `total_steps = 8`,
advances `total_steps` to 11 and `step_cpt` by 3 — the 5 gradient steps are
discarded from both counters (the `actor_steps = 0` reset at line 335 wipes
the accumulation of line 327), while the claim requires
`total_steps = 8 + 5 + 3 = 16`. -/
theorem totalSteps_drop_rl_steps :
    ((genBody ⟨0, 1, 100, 5000, 1000000⟩
        (fun (e : Unit) (p : Nat) => ((0 : Rat), p, e))
        ⟨8, 0, 0, [], (), 5, [], []⟩ ⟨[3], fun _ => 5⟩).1.totalSteps = 11
      ∧ (genBody ⟨0, 1, 100, 5000, 1000000⟩
        (fun (e : Unit) (p : Nat) => ((0 : Rat), p, e))
        ⟨8, 0, 0, [], (), 5, [], []⟩ ⟨[3], fun _ => 5⟩).1.stepCpt = 3)
    ∧ 11 ≠ 8 + (5 + 3) := by
  exact ⟨⟨rfl, rfl⟩, by decide⟩

/-- C4 (counterexample): a reachable configuration (`start_steps = 0`,
`batch_size = 100`) in an active generation whose replay buffer holds only
5 transitions: the gradient update is requested with fewer than
`batch_size` transitions in the buffer, yet it is performed (one actor
update and one critic update are issued), not skipped — the loop body
(lines 311-322) guards updates only by `total_steps > args.start_steps`
and never checks the buffer occupancy. -/
theorem update_not_skipped_small_buffer :
    (5 < 100
      ∧ (genBody ⟨0, 1, 100, 5000, 1000000⟩
          (fun (e : Unit) (p : Nat) => ((0 : Rat), p, e))
          ⟨1, 0, 0, [], (), 5, [], []⟩ ⟨[3], fun _ => 5⟩).2.updActor = 1)
    ∧ (genBody ⟨0, 1, 100, 5000, 1000000⟩
        (fun (e : Unit) (p : Nat) => ((0 : Rat), p, e))
        ⟨1, 0, 0, [], (), 5, [], []⟩ ⟨[3], fun _ => 5⟩).2.updCritic = 1 := by
  exact ⟨⟨by decide, rfl⟩, rfl⟩

/-- C4 (amended): gradient updates are guarded only by the warmup threshold
`total_steps > args.start_steps`; whenever a generation is active, all
`n_grad` actor updates and `n_grad` critic updates are performed regardless
of how many transitions the replay buffer holds (the buffer length is an
arbitrary component of the state here). -/
theorem update_guard_is_warmup_only (ar : Args) (ev : E → P → Rat × Nat × E)
    (st : LoopState E) (gi : GenInput P)
    (hact : ar.start_steps < st.totalSteps) :
    (genBody ar ev st gi).2.updActor = ar.n_grad
    ∧ (genBody ar ev st gi).2.updCritic = ar.n_grad := by
  rw [genBody_trace]
  exact ⟨if_pos hact, if_pos hact⟩

/-- Witness for `update_guard_is_warmup_only` at a concrete input. -/
theorem update_guard_is_warmup_only_witness :
    (genBody ⟨0, 2, 100, 5000, 1000000⟩
        (fun (e : Unit) (p : Nat) => ((0 : Rat), p, e))
        ⟨7, 0, 0, [], (), 0, [], []⟩ ⟨[3], fun _ => 5⟩).2.updActor = 2
    ∧ (genBody ⟨0, 2, 100, 5000, 1000000⟩
        (fun (e : Unit) (p : Nat) => ((0 : Rat), p, e))
        ⟨7, 0, 0, [], (), 0, [], []⟩ ⟨[3], fun _ => 5⟩).2.updCritic = 2 :=
  update_guard_is_warmup_only ⟨0, 2, 100, 5000, 1000000⟩
    (fun (e : Unit) (p : Nat) => ((0 : Rat), p, e))
    ⟨7, 0, 0, [], (), 0, [], []⟩ ⟨[3], fun _ => 5⟩ (by decide)

/-- C5: gradient actor and critic updates are performed in a generation if
and only if the cumulative step counter strictly exceeds `args.start_steps`
at the start of that generation (line 311), and once the threshold is
exceeded the loop stays active in every later generation, because
`total_steps` never decreases.  The hypothesis `0 < ar.n_grad` reflects
that the program constructs `sepCEM` from `actors[0]` (line 294), so any
run that reaches the loop has at least one gradient actor. -/
theorem updates_iff_past_warmup (ar : Args) (ev : E → P → Rat × Nat × E)
    (gis : Nat → GenInput P) (st0 : LoopState E) (hn : 0 < ar.n_grad)
    (n : Nat) :
    ((0 < (genBody ar ev (loopIter ar ev gis st0 n) (gis n)).2.updActor
        ∧ 0 < (genBody ar ev (loopIter ar ev gis st0 n) (gis n)).2.updCritic)
      ↔ ar.start_steps < (loopIter ar ev gis st0 n).totalSteps)
    ∧ ∀ k, ar.start_steps < (loopIter ar ev gis st0 n).totalSteps →
        ar.start_steps < (loopIter ar ev gis st0 (n + k)).totalSteps := by
  refine ⟨?_, loopIter_active_persists ar ev gis st0 n⟩
  rw [genBody_trace]
  constructor
  · intro h
    by_contra hc
    simp only [if_neg hc] at h
    exact Nat.lt_irrefl 0 h.1
  · intro h
    simp only [if_pos h]
    exact ⟨hn, hn⟩

/-- Witness for `updates_iff_past_warmup` at a concrete input: with
`start_steps = 5` and an initial `total_steps = 6`, generation 0 performs
its updates, and the loop is still active three generations later. -/
theorem updates_iff_past_warmup_witness :
    (0 < (genBody ⟨5, 1, 100, 5000, 1000000⟩
        (fun (e : Unit) (p : Nat) => ((0 : Rat), p, e))
        (loopIter ⟨5, 1, 100, 5000, 1000000⟩
          (fun (e : Unit) (p : Nat) => ((0 : Rat), p, e))
          (fun _ => ⟨[3], fun _ => 5⟩) ⟨6, 0, 0, [], (), 0, [], []⟩ 0)
        ((fun _ => (⟨[3], fun _ => 5⟩ : GenInput Nat)) 0)).2.updActor
      ∧ 0 < (genBody ⟨5, 1, 100, 5000, 1000000⟩
        (fun (e : Unit) (p : Nat) => ((0 : Rat), p, e))
        (loopIter ⟨5, 1, 100, 5000, 1000000⟩
          (fun (e : Unit) (p : Nat) => ((0 : Rat), p, e))
          (fun _ => ⟨[3], fun _ => 5⟩) ⟨6, 0, 0, [], (), 0, [], []⟩ 0)
        ((fun _ => (⟨[3], fun _ => 5⟩ : GenInput Nat)) 0)).2.updCritic)
    ∧ 5 < (loopIter ⟨5, 1, 100, 5000, 1000000⟩
        (fun (e : Unit) (p : Nat) => ((0 : Rat), p, e))
        (fun _ => ⟨[3], fun _ => 5⟩) ⟨6, 0, 0, [], (), 0, [], []⟩ (0 + 3)).totalSteps :=
  ⟨(updates_iff_past_warmup ⟨5, 1, 100, 5000, 1000000⟩
      (fun (e : Unit) (p : Nat) => ((0 : Rat), p, e))
      (fun _ => ⟨[3], fun _ => 5⟩) ⟨6, 0, 0, [], (), 0, [], []⟩
      (by decide) 0).1.mpr (by decide),
    (updates_iff_past_warmup ⟨5, 1, 100, 5000, 1000000⟩
      (fun (e : Unit) (p : Nat) => ((0 : Rat), p, e))
      (fun _ => ⟨[3], fun _ => 5⟩) ⟨6, 0, 0, [], (), 0, [], []⟩
      (by decide) 0).2 3 (by decide)⟩

/-- C10: the training script constructs `sepCEM` with
`antithetic=not args.pop_size % 2` (line 295), which is `true` exactly when
the configured population size is even; consequently the spec's
construction-time precondition (antithetic sampling requires an even
population size) holds for every integer population size reachable from
the command line — the odd-population-with-antithetic configuration error
is unreachable. -/
theorem antithetic_iff_even_pop (p : Int) :
    (antitheticArg p = true ↔ p % 2 = 0)
    ∧ sepCEMConstructionOk p (antitheticArg p) := by
  constructor
  · unfold antitheticArg pyNot
    exact beq_iff_eq
  · intro h
    unfold antitheticArg pyNot at h
    exact beq_iff_eq.mp h

/-- C6 (counterexample part): at a checkpoint boundary the `df.to_pickle`
call (line 360) runs before `df.append(res)` (line 376), so the persisted
tabular snapshot does not include the record appended at that boundary.
Concretely: starting from an empty log, an active generation that crosses
the period persists the empty snapshot `[]` while the in-memory log ends
the generation holding the new record — which is therefore not in the
persisted snapshot. -/
theorem snapshot_excludes_new_record :
    (genBody ⟨0, 1, 100, 1, 1000000⟩
        (fun (e : Unit) (p : Nat) => ((p : Rat), p, e))
        ⟨1, 0, 0, [], (), 0, [], []⟩ ⟨[2], fun _ => 3⟩).1.snapshots = [[]]
    ∧ ((genBody ⟨0, 1, 100, 1, 1000000⟩
        (fun (e : Unit) (p : Nat) => ((p : Rat), p, e))
        ⟨1, 0, 0, [], (), 0, [], []⟩ ⟨[2], fun _ => 3⟩).1.df).length = 1
    ∧ ∀ r : Rec, ¬ (r ∈ ([] : List Rec)) := by
  exact ⟨rfl, rfl, fun r => List.not_mem_nil r⟩

/-- C6 (amended): with checkpoint period `P = args.period`, checkpoint
artifacts are persisted exactly in the generations where the accumulated
step counter since the last checkpoint reaches or exceeds `P`
(line 358, `step_cpt >= args.period`).  At such a boundary the previously
accumulated log — excluding the new record — is persisted as the
overwritten tabular snapshot (line 360 runs before the append at 376),
then the summary record (total steps, mean evolutionary fitness, mean
gradient fitness, overall mean, max fitness) is appended to the in-memory
log, the checkpoint directory tagged with the updated global step count is
written, and the counter is reset to 0; below the boundary nothing is
persisted, no record is appended, and the counter just accumulates. -/
theorem checkpoint_cadence_snapshot_order (ar : Args)
    (ev : E → P → Rat × Nat × E) (st : LoopState E) (gi : GenInput P) :
    (ar.period ≤ st.stepCpt + (eaPhase ar ev st gi).2.1 →
      (genBody ar ev st gi).1.snapshots = st.snapshots ++ [st.df]
      ∧ (genBody ar ev st gi).1.df =
          st.df ++ [genRes (st.totalSteps + (eaPhase ar ev st gi).2.1)
            (eaPhase ar ev st gi).1 (rlPhase ar ev st gi).1]
      ∧ (genBody ar ev st gi).1.stepCpt = 0
      ∧ (genBody ar ev st gi).1.ckpts =
          st.ckpts ++ [st.totalSteps + (eaPhase ar ev st gi).2.1])
    ∧ (st.stepCpt + (eaPhase ar ev st gi).2.1 < ar.period →
      (genBody ar ev st gi).1.snapshots = st.snapshots
      ∧ (genBody ar ev st gi).1.df = st.df
      ∧ (genBody ar ev st gi).1.stepCpt = st.stepCpt + (eaPhase ar ev st gi).2.1
      ∧ (genBody ar ev st gi).1.ckpts = st.ckpts) := by
  simp only [genBody]
  constructor
  · intro h
    split
    · exact ⟨rfl, rfl, rfl, rfl⟩
    · omega
  · intro h
    split
    · omega
    · exact ⟨rfl, rfl, rfl, rfl⟩

/-- Witness for `checkpoint_cadence_snapshot_order` at a concrete
boundary-crossing input. -/
theorem checkpoint_cadence_snapshot_order_witness :
    (genBody ⟨0, 1, 100, 1, 1000000⟩
        (fun (e : Unit) (p : Nat) => ((p : Rat), p, e))
        ⟨1, 0, 0, [], (), 0, [], []⟩ ⟨[2], fun _ => 3⟩).1.snapshots
        = ([] : List (List Rec)) ++ [[]]
    ∧ (genBody ⟨0, 1, 100, 1, 1000000⟩
        (fun (e : Unit) (p : Nat) => ((p : Rat), p, e))
        ⟨1, 0, 0, [], (), 0, [], []⟩ ⟨[2], fun _ => 3⟩).1.df
        = ([] : List Rec) ++ [genRes (1 + (eaPhase ⟨0, 1, 100, 1, 1000000⟩
            (fun (e : Unit) (p : Nat) => ((p : Rat), p, e))
            ⟨1, 0, 0, [], (), 0, [], []⟩ ⟨[2], fun _ => 3⟩).2.1)
            (eaPhase ⟨0, 1, 100, 1, 1000000⟩
              (fun (e : Unit) (p : Nat) => ((p : Rat), p, e))
              ⟨1, 0, 0, [], (), 0, [], []⟩ ⟨[2], fun _ => 3⟩).1
            (rlPhase ⟨0, 1, 100, 1, 1000000⟩
              (fun (e : Unit) (p : Nat) => ((p : Rat), p, e))
              ⟨1, 0, 0, [], (), 0, [], []⟩ ⟨[2], fun _ => 3⟩).1]
    ∧ (genBody ⟨0, 1, 100, 1, 1000000⟩
        (fun (e : Unit) (p : Nat) => ((p : Rat), p, e))
        ⟨1, 0, 0, [], (), 0, [], []⟩ ⟨[2], fun _ => 3⟩).1.stepCpt = 0
    ∧ (genBody ⟨0, 1, 100, 1, 1000000⟩
        (fun (e : Unit) (p : Nat) => ((p : Rat), p, e))
        ⟨1, 0, 0, [], (), 0, [], []⟩ ⟨[2], fun _ => 3⟩).1.ckpts
        = ([] : List Nat) ++ [1 + (eaPhase ⟨0, 1, 100, 1, 1000000⟩
            (fun (e : Unit) (p : Nat) => ((p : Rat), p, e))
            ⟨1, 0, 0, [], (), 0, [], []⟩ ⟨[2], fun _ => 3⟩).2.1] :=
  (checkpoint_cadence_snapshot_order ⟨0, 1, 100, 1, 1000000⟩
    (fun (e : Unit) (p : Nat) => ((p : Rat), p, e))
    ⟨1, 0, 0, [], (), 0, [], []⟩ ⟨[2], fun _ => 3⟩).1 (by decide)

/-- Environment exhibiting the truncation-flag bug: `_max_episode_steps`
is 2; the `k`-th reset yields state `10 * k`; stepping from state `s`
yields state `s + 1` with reward 1, terminating (raw `done`) exactly at
state 0.  Episode 1 thus ends by true termination after one step, and
episode 2 runs to the two-step limit. -/
def env3 : Env Nat Unit :=
  ⟨2, fun r => 10 * r, fun s _ => (s + 1, 1, s == 0), [], []⟩

/-- C3 (code bug exhibit): on `env3` with `n_episodes = 2`, episode 2 ends
by reaching the environment's maximum episode length (it takes
`epSteps = 2 = maxEp` steps and its final raw `done` is `false`), yet the
final transition recorded for it carries `done_flag = 1`, because
`evaluate` compares the cumulative step counter — 3 at that point — with
`env._max_episode_steps` (line 116) instead of the per-episode step count.
The claim (and the spec) require `done_flag = 0` there.  The full recorded
transition list is computed; its last entry is the offending one. -/
theorem done_flag_uses_cumulative_counter :
    (evaluate env3 (fun _ _ => ()) true 2).2.2.1 =
      [⟨0, 1, (), 1, 1⟩, ⟨20, 21, (), 1, 0⟩, ⟨21, 22, (), 1, 1⟩]
    ∧ (episodeOuts env3 (fun _ _ => ()) true 2 0 0).map EpOut.epSteps = [1, 2]
    ∧ (env3.stepF 21 ()).2.2 = false
    ∧ env3.maxEp = 2 := by
  refine ⟨rfl, rfl, rfl, rfl⟩

/-- Environment for the action-bounds counterexample: a two-dimensional
action box with `low = [-1, -1/2]` and `high = [1, 1/2]`; every step
terminates immediately. -/
def env7c : Env Unit (List Rat) :=
  ⟨1, fun _ => (), fun _ _ => ((), 0, true), [-1, -(1/2)], [1, 1/2]⟩

/-- C7 (counterexample): `max_action = int(env.action_space.high[0])`
(line 264) reads only component 0 of the bound, so with declared bounds
`low = [-1, -1/2]`, `high = [1, 1/2]` the executed action of a non-random
policy whose network outputs `[0, 1]` is `np.clip([0, 1], -1, 1) = [0, 1]`,
whose second component 1 exceeds the declared bound 1/2: the recorded
action lies outside the environment's declared action-space box. -/
theorem action_escapes_declared_box :
    (evaluate env7c (nonRandomPol (fun _ => [0, 1]) none (maxActionOf env7c))
        true 1).2.2.1.map Transition.act = [[0, 1]]
    ∧ ¬ inBox env7c.low env7c.high [0, 1] := by
  refine ⟨rfl, fun h => ?_⟩
  have h2 := h ((1 : Rat), (-(1/2 : Rat), (1/2 : Rat)))
    (List.mem_cons_of_mem _ (List.mem_cons_self _ _))
  norm_num at h2

theorem evaluate_act_mem (env : Env S A) (pol : Nat → S → A) (useMem : Bool)
    (nEp : Nat) :
    ∀ t ∈ (evaluate env pol useMem nEp).2.2.1, ∃ gg ss, t.act = pol gg ss := by
  intro t ht
  have h : t ∈ ((episodeOuts env pol useMem nEp 0 0).map EpOut.trans).flatten := by
    have he : (evaluate env pol useMem nEp).2.2.1
        = (evalEpisodes env pol useMem nEp 0 0).2.2.1 := rfl
    rw [he, evalEpisodes_eq] at ht
    exact ht
  rw [List.mem_flatten] at h
  obtain ⟨l, hl, htl⟩ := h
  rw [List.mem_map] at hl
  obtain ⟨o, ho, rfl⟩ := hl
  obtain ⟨g0, s0, rfl⟩ := episodeOuts_mem_runEp env pol useMem nEp 0 0 o ho
  exact runEp_act_mem env pol useMem env.maxEp s0 0 g0 t htl

/-- C7 (amended): for every environment step taken by `evaluate` with a
non-random policy, the action recorded is the policy's output (plus a
sample of the exploration noise when a noise source is supplied) clipped
componentwise into the symmetric interval
`[-max_action, max_action]` with `max_action = int(env.action_space.high[0])`:
whenever `max_action` is non-negative, every component of every executed
action lies in that interval (which coincides with the declared action
bounds only when the declared box is the uniform symmetric integer box). -/
theorem action_within_clip_interval (env : Env S (List Rat))
    (actorF : S → List Rat) (noiseF : Option (Nat → List Rat))
    (useMem : Bool) (nEp : Nat) (hm : 0 ≤ maxActionOf env) :
    ∀ t ∈ (evaluate env (nonRandomPol actorF noiseF (maxActionOf env))
        useMem nEp).2.2.1,
      ∀ x ∈ t.act,
        -((maxActionOf env : Int) : Rat) ≤ x ∧ x ≤ ((maxActionOf env : Int) : Rat) := by
  intro t ht x hx
  obtain ⟨gg, ss, hact⟩ := evaluate_act_mem env _ useMem nEp t ht
  rw [hact] at hx
  have hx2 : x ∈ policyAction (actorF ss) (noiseF.map fun nf => nf gg)
      (maxActionOf env) := hx
  exact policyAction_bound (actorF ss) (noiseF.map fun nf => nf gg)
    (maxActionOf env) hm x hx2

/-- Environment for the C7 witness: the symmetric unit box in two action
dimensions; every step terminates immediately. -/
def env7w : Env Unit (List Rat) :=
  ⟨1, fun _ => (), fun _ _ => ((), 0, true), [-1, -1], [1, 1]⟩

/-- Witness for `action_within_clip_interval`: on `env7w` with actor output
`[5, -7]` the recorded action is `[1, -1]` and its first component obeys
the clip bounds. -/
theorem action_within_clip_interval_witness :
    -((maxActionOf env7w : Int) : Rat) ≤ 1 ∧ (1 : Rat) ≤ ((maxActionOf env7w : Int) : Rat) := by
  have hm : 0 ≤ maxActionOf env7w := by
    rw [show maxActionOf env7w = 1 from rfl]
    decide
  have hlist : (evaluate env7w (nonRandomPol (fun _ => [5, -7]) none
      (maxActionOf env7w)) true 1).2.2.1 = [⟨(), (), [1, -1], 0, 0⟩] := rfl
  refine action_within_clip_interval env7w (fun _ => [5, -7]) none true 1 hm
    ⟨(), (), [1, -1], 0, 0⟩ ?_ 1 ?_
  · rw [hlist]
    exact List.mem_singleton.mpr rfl
  · exact List.mem_cons_self 1 [-1]

/-- C8: for every call of `evaluate` with `episodes = nEp` rollouts, the
first returned value is the arithmetic mean of the per-episode cumulative
rewards over exactly `nEp` full rollouts, the second returned value is the
total number of environment steps taken across those rollouts, and the
environment is reset twice per episode: once at the episode's start
(line 108) and once when the episode terminates (line 132) — `2 * nEp`
resets in total.  The hypothesis `1 ≤ env.maxEp` states that the gym
`TimeLimit` bound is positive, which guarantees each episode terminates. -/
theorem evaluate_mean_steps_resets (env : Env S A) (pol : Nat → S → A)
    (useMem : Bool) (nEp : Nat) (h1 : 1 ≤ env.maxEp) :
    (episodeOuts env pol useMem nEp 0 0).length = nEp
    ∧ (evaluate env pol useMem nEp).1 =
        ratMean ((episodeOuts env pol useMem nEp 0 0).map fun o => (o.score : Rat))
    ∧ (evaluate env pol useMem nEp).2.1 =
        ((episodeOuts env pol useMem nEp 0 0).map EpOut.epSteps).sum
    ∧ (evaluate env pol useMem nEp).2.2.2 = 2 * nEp := by
  refine ⟨episodeOuts_length env pol useMem nEp 0 0, ?_, ?_, ?_⟩
  · show ratMean ((evalEpisodes env pol useMem nEp 0 0).1.map fun s : Int => (s : Rat)) = _
    rw [evalEpisodes_eq, List.map_map]
    rfl
  · show (evalEpisodes env pol useMem nEp 0 0).2.1 = _
    rw [evalEpisodes_eq]
    simp
  · show (evalEpisodes env pol useMem nEp 0 0).2.2.2 = 2 * nEp
    rw [evalEpisodes_eq]
    have hconst : ((episodeOuts env pol useMem nEp 0 0).map fun o => 1 + o.resets)
        = (episodeOuts env pol useMem nEp 0 0).map fun _ => 2 :=
      List.map_congr_left fun o ho => by
        rw [episodeOuts_resets env pol useMem h1 nEp 0 0 o ho]
    rw [hconst, List.map_const', List.sum_replicate, episodeOuts_length,
      smul_eq_mul, Nat.mul_comm]

/-- Environment for the C8 witness: `maxEp = 1`, constant dynamics with
reward 2, never terminating on its own (so every episode is a one-step
truncation). -/
def env8 : Env Nat Unit := ⟨1, fun r => r, fun s _ => (s, 2, false), [], []⟩

/-- Witness for `evaluate_mean_steps_resets` on `env8` with two episodes. -/
theorem evaluate_mean_steps_resets_witness :
    (episodeOuts env8 (fun _ _ => ()) true 2 0 0).length = 2
    ∧ (evaluate env8 (fun _ _ => ()) true 2).1 =
        ratMean ((episodeOuts env8 (fun _ _ => ()) true 2 0 0).map fun o => (o.score : Rat))
    ∧ (evaluate env8 (fun _ _ => ()) true 2).2.1 =
        ((episodeOuts env8 (fun _ _ => ()) true 2 0 0).map EpOut.epSteps).sum
    ∧ (evaluate env8 (fun _ _ => ()) true 2).2.2.2 = 2 * 2 :=
  evaluate_mean_steps_resets env8 (fun _ _ => ()) true 2 (by decide)

/-- C9: when the replay memory is supplied to `evaluate`, exactly one
transition is appended for every environment step of every rollout — the
number of recorded transitions equals the returned total step count, for
every policy (the statement quantifies over the policy, so it holds for
gradient actors and evolutionary candidates alike); when no memory is
supplied, nothing is recorded. -/
theorem evaluate_buffer_effect (env : Env S A) (pol : Nat → S → A) (nEp : Nat) :
    (evaluate env pol true nEp).2.2.1.length = (evaluate env pol true nEp).2.1
    ∧ (evaluate env pol false nEp).2.2.1 = [] := by
  constructor
  · show ((evalEpisodes env pol true nEp 0 0).2.2.1).length
        = (evalEpisodes env pol true nEp 0 0).2.1
    rw [evalEpisodes_eq]
    simp only [List.length_flatten, List.map_map, Nat.zero_add]
    congr 1
    refine List.map_congr_left fun o ho => ?_
    obtain ⟨g0, s0, rfl⟩ := episodeOuts_mem_runEp env pol true nEp 0 0 o ho
    have h := runEp_trans_len env pol true env.maxEp s0 0 g0
    simpa using h
  · have hlen : (evalEpisodes env pol false nEp 0 0).2.2.1.length = 0 := by
      rw [evalEpisodes_eq]
      simp only [List.length_flatten, List.map_map]
      refine List.sum_eq_zero fun n hn => ?_
      rw [List.mem_map] at hn
      obtain ⟨o, ho, rfl⟩ := hn
      obtain ⟨g0, s0, rfl⟩ := episodeOuts_mem_runEp env pol false nEp 0 0 o ho
      have h := runEp_trans_len env pol false env.maxEp s0 0 g0
      simpa using h
    exact List.eq_nil_of_length_eq_zero hlen

end CEMRL
